import Mathlib

/-!
Shallow embedding of the billiards simulation controller of `wasm-pool`
(`src/main.rs`), and proofs of the specification claims about it.

Modelling choices, stated once:

* `f32` scalars are modelled by an arbitrary linear ordered field `α`
  (`ℚ` for concrete evaluation, `ℝ` for the trigonometric shot
  kinematics).  All scalar constants of the program are small integers
  or exact dyadic fractions, so the comparisons and sums the claims
  depend on are exact in `f32` as well.
* The nphysics `World` is modelled as an association list from body
  handles (`Nat`) to body records carrying position, linear velocity,
  accumulated external force and the engine's activation flag.
  `World::rigid_body` is `lookupBody`, `World::remove_bodies` is
  `removeBody`, `World::add_rigid_body` plus its collider is `addBody`.
* A Rust `unwrap()` on a missing body, and nphysics' internal panic in
  `World::body_part_mut` on an invalidated handle, are modelled by
  `Option.none`; a returned state is `Option.some`.
* Handle allocation is nondeterministic in nphysics (slab indices may
  be reused after removal), so the operations that create bodies take
  the freshly allocated handle as an explicit argument; theorems assume
  only that the allocator returns a handle that is not currently live.
* The physics step `World::step` and the contact-event stream are
  external to this repository; `step` is therefore parametrised by an
  arbitrary world transformation `phys` and an arbitrary event list.
-/

set_option linter.unusedSectionVars false

namespace WasmPool

/-- `BALL_SIZE` constant of `main.rs`. -/
def BALL_SIZE (α : Type) [LinearOrderedField α] : α := 120

/-- `WIDTH` constant of `main.rs`. -/
def WIDTH (α : Type) [LinearOrderedField α] : α := 7720

/-- `HEIGHT` constant of `main.rs`. -/
def HEIGHT (α : Type) [LinearOrderedField α] : α := 4000

/-- `MARGIN_TOP` constant of `main.rs`. -/
def MARGIN_TOP (α : Type) [LinearOrderedField α] : α := 1500

/-- `MARGIN_LEFT` constant of `main.rs`. -/
def MARGIN_LEFT (α : Type) [LinearOrderedField α] : α := 1000

/-- `BORDER` constant of `main.rs`. -/
def BORDER (α : Type) [LinearOrderedField α] : α := 280

/-- `Z_GRAVITY` constant of `main.rs` (the drag factor `-0.7`). -/
def Z_GRAVITY (α : Type) [LinearOrderedField α] : α := -(7 / 10)

/-- A rigid body as far as the controller observes it: pose, linear
velocity, accumulated external force, and the engine activation flag. -/
structure Body (α : Type) where
  posx : α
  posy : α
  velx : α
  vely : α
  forcex : α
  forcey : α
  active : Bool
deriving DecidableEq

/-- The body store of the nphysics `World`, as an association list from
handles to bodies. -/
abbrev World (α : Type) := List (Nat × Body α)

variable {α : Type} [LinearOrderedField α]

/-- Handles of the bodies currently existing in the world. -/
def liveHandles (w : World α) : List Nat := w.map Prod.fst

/-- `World::rigid_body` / `World::body_part`: look a body up by handle. -/
def lookupBody : World α → Nat → Option (Body α)
  | [], _ => none
  | (k, b) :: t, h => if k = h then some b else lookupBody t h

/-- Replace the body stored at a handle (used to model `set_velocity`
and `apply_force`, which mutate the body in place). -/
def updateBody (f : Body α → Body α) : World α → Nat → World α
  | [], _ => []
  | (k, b) :: t, h =>
      if k = h then (k, f b) :: updateBody f t h else (k, b) :: updateBody f t h

/-- `World::remove_bodies` on a single handle. -/
def removeBody : World α → Nat → World α
  | [], _ => []
  | (k, b) :: t, h => if k = h then removeBody t h else (k, b) :: removeBody t h

/-- `World::add_rigid_body`: the allocated handle is passed explicitly. -/
def addBody (w : World α) (h : Nat) (b : Body α) : World α := w ++ [(h, b)]

/-- The `PoolTable` struct of `main.rs`, restricted to the fields the
controller logic reads or writes (the collider margins, materials and
static ground colliders carry no controller state). -/
structure PoolTable (α : Type) where
  world : World α
  holes : List Nat
  white_ball_handle : Option Nat
  white_ball_handle_dropped : Option Nat
  ball_8_handle : Option Nat
  dropped_balls_handles : List Nat
  yellow_balls_handles : List Nat
  red_balls_handles : List Nat
deriving DecidableEq

/-- `PoolTable::new`: empty world, no registered balls. -/
def emptyTable (α : Type) [LinearOrderedField α] : PoolTable α :=
  ⟨[], [], none, none, none, [], [], []⟩

/-- A freshly created ball body: at the given position, at rest, with no
accumulated force; new nphysics bodies start awake. -/
def mkBall (x y : α) : Body α :=
  ⟨x, y, 0, 0, 0, 0, true⟩

/-- `PoolTable::add_ball` (lines 395-414): creates one dynamic body at
`(x, y)`.  The handle the slab allocator returns is passed explicitly. -/
def add_ball (s : PoolTable α) (h : Nat) (x y : α) : PoolTable α :=
  { s with world := addBody s.world h (mkBall x y) }

/-- `PoolTable::drop_ball` (lines 425-458): early return for an
already-dropped handle; otherwise clear whichever registry slot matches
(white, eight, red list, yellow list — or none of them), then record the
handle as dropped and remove the body from the world. -/
def drop_ball (s : PoolTable α) (ball : Nat) : PoolTable α :=
  if ball ∈ s.dropped_balls_handles then s
  else
    let s' :=
      if s.white_ball_handle = some ball then
        { s with white_ball_handle_dropped := s.white_ball_handle,
                 white_ball_handle := none }
      else if s.ball_8_handle = some ball then
        { s with ball_8_handle := none }
      else if ball ∈ s.red_balls_handles then
        { s with red_balls_handles :=
            s.red_balls_handles.filter (fun b => b ≠ ball) }
      else if ball ∈ s.yellow_balls_handles then
        { s with yellow_balls_handles :=
            s.yellow_balls_handles.filter (fun b => b ≠ ball) }
      else s
    { s' with dropped_balls_handles := s'.dropped_balls_handles ++ [ball],
              world := removeBody s'.world ball }

/-- A contact event as reported by the engine; the collider-to-body
lookup performed at lines 462-463 is folded in, so events carry body
handles directly. -/
inductive ContactEvent where
  | started (body1 body2 : Nat)
  | stopped (body1 body2 : Nat)
deriving DecidableEq

/-- `PoolTable::handle_contact_event` (lines 460-473). -/
def handle_contact_event (s : PoolTable α) (e : ContactEvent) : Option Nat :=
  match e with
  | .started b1 b2 =>
      if b1 ∈ s.holes then some b2
      else if b2 ∈ s.holes then some b1
      else none
  | .stopped _ _ => none

/-- `PoolTable::respawn_white_ball` (lines 475-486): create a fresh body
at the white spawn point, remove the (possibly reused) fresh handle from
the dropped list, register it as the white ball, clear the dropped-white
marker. -/
def respawn_white_ball (s : PoolTable α) (h : Nat) : PoolTable α :=
  let x := MARGIN_LEFT α + BORDER α + WIDTH α * (1 / 4)
  let y := MARGIN_TOP α + BORDER α + HEIGHT α * (1 / 2)
  let s' := add_ball s h x y
  { s' with
      dropped_balls_handles := s'.dropped_balls_handles.filter (fun b => b ≠ h),
      white_ball_handle := some h,
      white_ball_handle_dropped := none }

/-- `ZGravity::apply_force` (lines 53-63): read the body part (nphysics
panics on an invalidated handle — there is no guard in the source),
scale its linear velocity by `Z_GRAVITY`, and apply the corresponding
force `inertia * velocity` to the body.  The inertia scalar of the
nphysics body is abstracted as a parameter. -/
def z_gravity_apply_force (inertia : α) (w : World α) (body : Nat) : Option (World α) :=
  match lookupBody w body with
  | none => none
  | some part =>
      let vx := part.velx * Z_GRAVITY α
      let vy := part.vely * Z_GRAVITY α
      some (updateBody
        (fun b => { b with forcex := b.forcex + inertia * vx,
                           forcey := b.forcey + inertia * vy }) w body)

/-- `PoolTable::speed_up_inactive_ball` (lines 488-498): unwrap the
body; if the velocity is exactly zero, do nothing; if both components
are strictly below 150 in magnitude, set the velocity to exactly zero;
otherwise leave the body untouched. -/
def speed_up_inactive_ball (w : World α) (handle : Nat) : Option (World α) :=
  match lookupBody w handle with
  | none => none
  | some b =>
      if b.velx = 0 ∧ b.vely = 0 then some w
      else if |b.velx| < 150 ∧ |b.vely| < 150 then
        some (updateBody (fun b => { b with velx := 0, vely := 0 }) w handle)
      else some w

/-- `PoolTable::is_active` (lines 500-506): `None` handles are inactive;
a present handle is unwrapped (panics if the body is gone). -/
def is_active (s : PoolTable α) (handle : Option Nat) : Option Bool :=
  match handle with
  | some ball =>
      match lookupBody s.world ball with
      | none => none
      | some b => some b.active
  | none => some false

/-- The short-circuiting activity scan over a handle list, as in the two
`for` loops of `PoolTable::has_force` (lines 540-549). -/
def any_active (s : PoolTable α) : List Nat → Option Bool
  | [] => some false
  | h :: t =>
      match is_active s (some h) with
      | none => none
      | some true => some true
      | some false => any_active s t

/-- `PoolTable::has_force` (lines 531-552): white, then eight, then the
red list, then the yellow list, short-circuiting on the first active
body. -/
def has_force (s : PoolTable α) : Option Bool :=
  match is_active s s.white_ball_handle with
  | none => none
  | some true => some true
  | some false =>
    match is_active s s.ball_8_handle with
    | none => none
    | some true => some true
    | some false =>
      match any_active s s.red_balls_handles with
      | none => none
      | some true => some true
      | some false => any_active s s.yellow_balls_handles

/-- Stabilise every handle of a list in order (the loops of
`speed_up_inactive_balls`). -/
def speed_up_list (w : World α) : List Nat → Option (World α)
  | [] => some w
  | h :: t =>
      match speed_up_inactive_ball w h with
      | none => none
      | some w' => speed_up_list w' t

/-- Stabilise an optional handle (the `if let` branches of
`speed_up_inactive_balls`). -/
def speed_up_opt (w : World α) : Option Nat → Option (World α)
  | none => some w
  | some h => speed_up_inactive_ball w h

/-- `PoolTable::speed_up_inactive_balls` (lines 508-529): white, eight,
red list, yellow list. -/
def speed_up_inactive_balls (s : PoolTable α) : Option (PoolTable α) :=
  match speed_up_opt s.world s.white_ball_handle with
  | none => none
  | some w1 =>
    match speed_up_opt w1 s.ball_8_handle with
    | none => none
    | some w2 =>
      match speed_up_list w2 s.red_balls_handles with
      | none => none
      | some w3 =>
        match speed_up_list w3 s.yellow_balls_handles with
        | none => none
        | some w4 => some { s with world := w4 }

/-- `PoolTable::shoot` (lines 554-559): unwrap the white-ball handle
(panics when the white ball is not in play), unwrap its body, and set
its linear velocity to the given components.  No rest-invariant check
appears here. -/
def shoot (s : PoolTable α) (cane_force_x cane_force_y : α) : Option (PoolTable α) :=
  match s.white_ball_handle with
  | none => none
  | some h =>
      match lookupBody s.world h with
      | none => none
      | some _ =>
          let w' := updateBody
            (fun b => { b with velx := cane_force_x, vely := cane_force_y }) s.world h
          some { s with world := w' }

/-- Drag applied to every handle of a list in order (the loops of
`PoolTable::step`, lines 571-576). -/
def drag_list (inertia : α) (w : World α) : List Nat → Option (World α)
  | [] => some w
  | h :: t =>
      match z_gravity_apply_force inertia w h with
      | none => none
      | some w' => drag_list inertia w' t

/-- Drag applied to an optional handle (the `if let` branches of
`PoolTable::step`, lines 565-570). -/
def drag_opt (inertia : α) (w : World α) : Option Nat → Option (World α)
  | none => some w
  | some h => z_gravity_apply_force inertia w h

/-- The drag phase of `PoolTable::step` (lines 564-576): white, eight,
yellow list, red list. -/
def step_drag (inertia : α) (s : PoolTable α) : Option (PoolTable α) :=
  match drag_opt inertia s.world s.white_ball_handle with
  | none => none
  | some w1 =>
    match drag_opt inertia w1 s.ball_8_handle with
    | none => none
    | some w2 =>
      match drag_list inertia w2 s.yellow_balls_handles with
      | none => none
      | some w3 =>
        match drag_list inertia w3 s.red_balls_handles with
        | none => none
        | some w4 => some { s with world := w4 }

/-- The pocketing phase of `PoolTable::step` (lines 579-588): first
collect every candidate of this tick's events, then apply `drop_ball`
to the collected list. -/
def step_drops (s : PoolTable α) (events : List ContactEvent) : PoolTable α :=
  (events.filterMap (fun e => handle_contact_event s e)).foldl drop_ball s

/-- The hypothetical interleaved variant: resolve each event against the
current state and drop immediately.  Used to state that the
collect-then-apply order of the source observes no mid-iteration
removal. -/
def step_drops_interleaved (s : PoolTable α) : List ContactEvent → PoolTable α
  | [] => s
  | e :: t =>
      match handle_contact_event s e with
      | some c => step_drops_interleaved (drop_ball s c) t
      | none => step_drops_interleaved s t

/-- The stabilisation phase of `PoolTable::step` (lines 590-592). -/
def step_stabilize (s : PoolTable α) : Option (PoolTable α) :=
  match has_force s with
  | none => none
  | some true => speed_up_inactive_balls s
  | some false => some s

/-- `PoolTable::step` (lines 561-593): engine step (external, passed as
`phys`), drag, contact resolution, stabilisation. -/
def step (s : PoolTable α) (phys : World α → World α) (events : List ContactEvent)
    (inertia : α) : Option (PoolTable α) :=
  match step_drag inertia { s with world := phys s.world } with
  | none => none
  | some s1 => step_stabilize (step_drops s1 events)

/-- The `Key::Return` branch of `PoolGameUI::update` (lines 713-723),
after the cane kinematics have produced the two force components: the
shot is issued only when `has_force()` is false, otherwise nothing
happens. -/
def update_shot (s : PoolTable α) (cane_force_x cane_force_y : α) : Option (PoolTable α) :=
  match has_force s with
  | none => none
  | some true => some s
  | some false => shoot s cane_force_x cane_force_y

/-- The cane kinematics of `PoolGameUI::update` (lines 714-717):
`rot = cane_rotation.to_radians()`, `force = cane_force.powf(1.5)`,
components `force * cos rot` and `force * sin rot`. -/
noncomputable def cane_velocity (cane_rotation cane_force : ℝ) : ℝ × ℝ :=
  let rot := cane_rotation * (Real.pi / 180)
  let force := cane_force ^ (1.5 : ℝ)
  (force * Real.cos rot, force * Real.sin rot)

/-- The full `Key::Return` branch of `PoolGameUI::update`: kinematics
followed by the gated shot. -/
noncomputable def update_return_pressed (s : PoolTable ℝ) (cane_rotation cane_force : ℝ) :
    Option (PoolTable ℝ) :=
  update_shot s (cane_velocity cane_rotation cane_force).1
    (cane_velocity cane_rotation cane_force).2

/-- `PoolTable::initialize_balls` (lines 184-276): sixteen `add_ball`
calls in source order (white, r1, r2, y1, y2, eight, r3, r4, y3, r5, y4,
y5, y6, r6, y7, r7) at the rack coordinates, then the registry slots are
overwritten.  `n` is the first handle the slab allocator returns; the
sixteen bodies receive consecutive handles. -/
def init_balls (s : PoolTable α) (n : Nat) : PoolTable α :=
  let center_y := MARGIN_TOP α + BORDER α + HEIGHT α * (1 / 2)
  let s := add_ball s n (MARGIN_LEFT α + BORDER α + WIDTH α * (1 / 4)) center_y
  let center_x := MARGIN_LEFT α + BORDER α + WIDTH α * (3 / 4)
  let s := add_ball s (n + 1) (center_x - 4 * BALL_SIZE α) center_y
  let s := add_ball s (n + 2) (center_x - 2 * BALL_SIZE α) (center_y - 1 * BALL_SIZE α)
  let s := add_ball s (n + 3) (center_x - 2 * BALL_SIZE α) (center_y + 1 * BALL_SIZE α)
  let s := add_ball s (n + 4) center_x (center_y - 2 * BALL_SIZE α)
  let s := add_ball s (n + 5) center_x center_y
  let s := add_ball s (n + 6) center_x (center_y + 2 * BALL_SIZE α)
  let s := add_ball s (n + 7) (center_x + 2 * BALL_SIZE α) (center_y - 3 * BALL_SIZE α)
  let s := add_ball s (n + 8) (center_x + 2 * BALL_SIZE α) (center_y - 1 * BALL_SIZE α)
  let s := add_ball s (n + 9) (center_x + 2 * BALL_SIZE α) (center_y + 1 * BALL_SIZE α)
  let s := add_ball s (n + 10) (center_x + 2 * BALL_SIZE α) (center_y + 3 * BALL_SIZE α)
  let s := add_ball s (n + 11) (center_x + 4 * BALL_SIZE α) (center_y - 4 * BALL_SIZE α)
  let s := add_ball s (n + 12) (center_x + 4 * BALL_SIZE α) (center_y - 2 * BALL_SIZE α)
  let s := add_ball s (n + 13) (center_x + 4 * BALL_SIZE α) center_y
  let s := add_ball s (n + 14) (center_x + 4 * BALL_SIZE α) (center_y + 2 * BALL_SIZE α)
  let s := add_ball s (n + 15) (center_x + 4 * BALL_SIZE α) (center_y + 4 * BALL_SIZE α)
  { s with
      red_balls_handles := [n + 1, n + 2, n + 6, n + 7, n + 9, n + 13, n + 15],
      yellow_balls_handles := [n + 3, n + 4, n + 8, n + 10, n + 11, n + 12, n + 14],
      ball_8_handle := some (n + 5),
      white_ball_handle := some n }

/-- The handles the registry currently considers in play: white, eight,
reds, yellows (the iteration order used throughout the source). -/
def in_play_handles (s : PoolTable α) : List Nat :=
  s.white_ball_handle.toList ++ s.ball_8_handle.toList ++
    s.red_balls_handles ++ s.yellow_balls_handles

/-- The registry invariant of the spec: in-play handles are pairwise
distinct, reference exactly one live body each (world keys are also
pairwise distinct), and are not recorded as dropped; dropped handles
reference no body; the dropped-white marker implies the white ball is
out of play and recorded as dropped. -/
def RegistryInv (s : PoolTable α) : Prop :=
  (in_play_handles s).Nodup ∧
  (liveHandles s.world).Nodup ∧
  (∀ h ∈ in_play_handles s, h ∈ liveHandles s.world) ∧
  (∀ h ∈ in_play_handles s, h ∉ s.dropped_balls_handles) ∧
  (∀ h ∈ s.dropped_balls_handles, h ∉ liveHandles s.world) ∧
  (∀ h ∈ s.white_ball_handle_dropped.toList,
      s.white_ball_handle = none ∧ h ∈ s.dropped_balls_handles)

instance (s : PoolTable α) : Decidable (RegistryInv s) := by
  unfold RegistryInv
  infer_instance

/-- The fresh rack over `ℚ`: the state `initialize_balls` produces on a
new table (handles are allocated consecutively from 0 by the slab). -/
def rackQ : PoolTable ℚ := init_balls (emptyTable ℚ) 0

/-- The fresh rack plus one registered pocket-sensor body. -/
def rackWithHole : PoolTable ℚ :=
  { rackQ with world := addBody rackQ.world 99 (mkBall 1300 1860),
               holes := [99] }

/-- A single active white ball (a moving table). -/
def stActive : PoolTable ℚ :=
  ⟨[(0, ⟨3210, 3780, 0, 0, 0, 0, true⟩)], [], some 0, none, none, [], [], []⟩

/-- A single inactive white ball at rest (an idle table). -/
def stIdle : PoolTable ℚ :=
  ⟨[(0, ⟨3210, 3780, 0, 0, 0, 0, false⟩)], [], some 0, none, none, [], [], []⟩

/-- The idle single-white-ball table over `ℝ`, for the shot kinematics. -/
def stIdleR : PoolTable ℝ :=
  ⟨[(0, ⟨0, 0, 0, 0, 0, 0, false⟩)], [], some 0, none, none, [], [], []⟩

/-- An inactive body with residual velocity `(120, 40)`. -/
def body120 : Body ℚ := ⟨1, 2, 120, 40, 0, 0, false⟩

/-- A world holding only `body120`. -/
def w120 : World ℚ := [(0, body120)]

/-- An inactive body with velocity `(200, 10)` (one axis over threshold). -/
def body200 : Body ℚ := ⟨1, 2, 200, 10, 0, 0, false⟩

/-- A world holding only `body200`. -/
def w200 : World ℚ := [(0, body200)]

/-- An inactive body exactly at rest. -/
def body0 : Body ℚ := ⟨1, 2, 0, 0, 0, 0, false⟩

/-- A world holding only `body0`. -/
def wzero : World ℚ := [(0, body0)]

/-- Two states with the same registry fields and the same set of live
handles (they may differ only in velocity, force or position writes to
existing bodies). -/
def SameShape (s s' : PoolTable α) : Prop :=
  liveHandles s'.world = liveHandles s.world ∧
  s'.holes = s.holes ∧
  s'.white_ball_handle = s.white_ball_handle ∧
  s'.white_ball_handle_dropped = s.white_ball_handle_dropped ∧
  s'.ball_8_handle = s.ball_8_handle ∧
  s'.dropped_balls_handles = s.dropped_balls_handles ∧
  s'.yellow_balls_handles = s.yellow_balls_handles ∧
  s'.red_balls_handles = s.red_balls_handles

/-! ### World-level lemmas -/

theorem mem_liveHandles_removeBody {w : World α} {h a : Nat} :
    a ∈ liveHandles (removeBody w h) ↔ a ∈ liveHandles w ∧ a ≠ h := by
  induction w with
  | nil => simp [removeBody, liveHandles]
  | cons p t ih =>
      obtain ⟨k, b⟩ := p
      by_cases hk : k = h
      · simp only [removeBody, if_pos hk, liveHandles, List.map_cons, List.mem_cons] at ih ⊢
        rw [ih]
        subst hk
        constructor
        · exact fun ⟨hm, hne⟩ => ⟨Or.inr hm, hne⟩
        · rintro ⟨hm | hm, hne⟩
          · exact absurd hm hne
          · exact ⟨hm, hne⟩
      · simp only [removeBody, if_neg hk, liveHandles, List.map_cons, List.mem_cons] at ih ⊢
        rw [ih]
        constructor
        · rintro (hm | ⟨hm, hne⟩)
          · exact ⟨Or.inl hm, hm ▸ hk⟩
          · exact ⟨Or.inr hm, hne⟩
        · rintro ⟨hm | hm, hne⟩
          · exact Or.inl hm
          · exact Or.inr ⟨hm, hne⟩

theorem removeBody_sublist (w : World α) (h : Nat) : List.Sublist (removeBody w h) w := by
  induction w with
  | nil => simp [removeBody]
  | cons p t ih =>
      obtain ⟨k, b⟩ := p
      by_cases hk : k = h
      · rw [removeBody, if_pos hk]
        exact ih.cons _
      · rw [removeBody, if_neg hk]
        exact ih.cons₂ _

theorem nodup_liveHandles_removeBody {w : World α} (h : Nat)
    (hw : (liveHandles w).Nodup) : (liveHandles (removeBody w h)).Nodup :=
  hw.sublist ((removeBody_sublist w h).map Prod.fst)

theorem liveHandles_updateBody (f : Body α → Body α) (w : World α) (h : Nat) :
    liveHandles (updateBody f w h) = liveHandles w := by
  induction w with
  | nil => rfl
  | cons p t ih =>
      obtain ⟨k, b⟩ := p
      by_cases hk : k = h <;> simp [updateBody, hk, liveHandles, ih] <;>
        simpa [liveHandles] using ih

theorem liveHandles_addBody (w : World α) (h : Nat) (b : Body α) :
    liveHandles (addBody w h b) = liveHandles w ++ [h] := by
  simp [addBody, liveHandles]

theorem lookupBody_eq_none_iff {w : World α} {h : Nat} :
    lookupBody w h = none ↔ h ∉ liveHandles w := by
  induction w with
  | nil => simp [lookupBody, liveHandles]
  | cons p t ih =>
      obtain ⟨k, b⟩ := p
      by_cases hk : k = h <;>
        simp [lookupBody, hk, liveHandles, ih, eq_comm (a := h) (b := k)]

theorem lookupBody_updateBody_self (f : Body α → Body α) (w : World α) (h : Nat) :
    lookupBody (updateBody f w h) h = (lookupBody w h).map f := by
  induction w with
  | nil => rfl
  | cons p t ih =>
      obtain ⟨k, b⟩ := p
      by_cases hk : k = h <;> simp [updateBody, lookupBody, hk, ih]

theorem lookupBody_updateBody_ne (f : Body α → Body α) {w : World α} {h k : Nat}
    (hne : k ≠ h) : lookupBody (updateBody f w h) k = lookupBody w k := by
  induction w with
  | nil => rfl
  | cons p t ih =>
      obtain ⟨kk, b⟩ := p
      by_cases hk : kk = h
      · have hkk : ¬kk = k := fun hh => hne (hh ▸ hk)
        simp only [updateBody, if_pos hk, lookupBody, if_neg hkk]
        exact ih
      · by_cases hk2 : kk = k
        · simp only [updateBody, if_neg hk, lookupBody, if_pos hk2]
        · simp only [updateBody, if_neg hk, lookupBody, if_neg hk2]
          exact ih

theorem lookupBody_addBody_fresh {w : World α} {h : Nat}
    (hf : h ∉ liveHandles w) (b : Body α) :
    lookupBody (addBody w h b) h = some b := by
  induction w with
  | nil => simp [addBody, lookupBody]
  | cons p t ih =>
      obtain ⟨k, bb⟩ := p
      simp only [liveHandles, List.map_cons, List.mem_cons] at hf
      push_neg at hf
      have : ¬k = h := fun hh => hf.1 hh.symm
      simpa [addBody, lookupBody, this] using ih (by simpa [liveHandles] using hf.2)

/-! ### Shape preservation -/

theorem sameShape_refl (s : PoolTable α) : SameShape s s :=
  ⟨rfl, rfl, rfl, rfl, rfl, rfl, rfl, rfl⟩

theorem sameShape_trans {s1 s2 s3 : PoolTable α}
    (h12 : SameShape s1 s2) (h23 : SameShape s2 s3) : SameShape s1 s3 := by
  obtain ⟨a1, a2, a3, a4, a5, a6, a7, a8⟩ := h12
  obtain ⟨b1, b2, b3, b4, b5, b6, b7, b8⟩ := h23
  exact ⟨b1.trans a1, b2.trans a2, b3.trans a3, b4.trans a4, b5.trans a5,
    b6.trans a6, b7.trans a7, b8.trans a8⟩

theorem in_play_handles_congr {s s' : PoolTable α} (hs : SameShape s s') :
    in_play_handles s' = in_play_handles s := by
  obtain ⟨_, _, h3, _, h5, _, h7, h8⟩ := hs
  simp [in_play_handles, h3, h5, h7, h8]

theorem registryInv_of_sameShape {s s' : PoolTable α} (hs : SameShape s s')
    (inv : RegistryInv s) : RegistryInv s' := by
  have hinp := in_play_handles_congr hs
  obtain ⟨h1, _, h3, h4, _, h6, _, _⟩ := hs
  unfold RegistryInv at inv ⊢
  rw [hinp, h1, h4, h6, h3]
  exact inv

/-! ### Invariant preservation by `drop_ball` -/

theorem drop_finalize_inv {s : PoolTable α} {ball : Nat}
    (wbh wbhd b8 : Option Nat) (reds yellows : List Nat)
    (hsub : List.Sublist (wbh.toList ++ b8.toList ++ reds ++ yellows)
      (in_play_handles s))
    (hball : ball ∉ wbh.toList ++ b8.toList ++ reds ++ yellows)
    (hwd' : ∀ h ∈ wbhd.toList,
        wbh = none ∧ (h ∈ s.dropped_balls_handles ∨ h = ball))
    (inv : RegistryInv s) :
    RegistryInv ⟨removeBody s.world ball, s.holes, wbh, wbhd, b8,
      s.dropped_balls_handles ++ [ball], yellows, reds⟩ := by
  obtain ⟨hnpA, hnpW, hlive, hnd, hdl, hwd⟩ := inv
  have hip : in_play_handles (⟨removeBody s.world ball, s.holes, wbh, wbhd, b8,
      s.dropped_balls_handles ++ [ball], yellows, reds⟩ : PoolTable α) =
      wbh.toList ++ b8.toList ++ reds ++ yellows := rfl
  refine ⟨?_, ?_, ?_, ?_, ?_, ?_⟩
  · rw [hip]
    exact hsub.nodup hnpA
  · exact nodup_liveHandles_removeBody _ hnpW
  · intro h hh
    rw [hip] at hh
    exact mem_liveHandles_removeBody.mpr
      ⟨hlive h (hsub.subset hh), fun he => hball (he ▸ hh)⟩
  · intro h hh
    rw [hip] at hh
    simp only [List.mem_append, List.mem_singleton]
    rintro (hm | rfl)
    · exact hnd h (hsub.subset hh) hm
    · exact hball hh
  · intro h hh
    rcases List.mem_append.mp hh with hm | hm
    · intro hl
      exact hdl h hm (mem_liveHandles_removeBody.mp hl).1
    · have hb : h = ball := by simpa using hm
      subst hb
      intro hl
      exact (mem_liveHandles_removeBody.mp hl).2 rfl
  · intro h hh
    obtain ⟨h1, h2⟩ := hwd' h hh
    refine ⟨h1, ?_⟩
    rcases h2 with hm | rfl
    · exact List.mem_append.mpr (Or.inl hm)
    · exact List.mem_append.mpr (Or.inr (by simp))

theorem nodup_append_disjoint {l1 l2 : List Nat} {a : Nat}
    (h : (l1 ++ l2).Nodup) (ha : a ∈ l1) : a ∉ l2 :=
  (List.disjoint_of_nodup_append h) ha

theorem drop_ball_preserves_inv {s : PoolTable α} (inv : RegistryInv s) (ball : Nat) :
    RegistryInv (drop_ball s ball) := by
  by_cases hd : ball ∈ s.dropped_balls_handles
  · simpa [drop_ball, hd] using inv
  · have hnpA := inv.1
    have hwd := inv.2.2.2.2.2
    by_cases hw : s.white_ball_handle = some ball
    · -- white-ball branch
      have hgoal : drop_ball s ball =
          ⟨removeBody s.world ball, s.holes, none, s.white_ball_handle,
            s.ball_8_handle, s.dropped_balls_handles ++ [ball],
            s.yellow_balls_handles, s.red_balls_handles⟩ := by
        simp [drop_ball, hd, hw]
      rw [hgoal]
      have hshape : in_play_handles s =
          ball :: (s.ball_8_handle.toList ++ s.red_balls_handles ++
            s.yellow_balls_handles) := by
        simp [in_play_handles, hw]
      refine drop_finalize_inv none s.white_ball_handle s.ball_8_handle
        s.red_balls_handles s.yellow_balls_handles ?_ ?_ ?_ inv
      · rw [hshape]
        have he : ((none : Option Nat).toList ++ s.ball_8_handle.toList ++
            s.red_balls_handles ++ s.yellow_balls_handles) =
            s.ball_8_handle.toList ++ s.red_balls_handles ++
              s.yellow_balls_handles := by simp
        rw [he]
        exact (List.Sublist.refl _).cons _
      · have h1 := (List.nodup_cons.mp (hshape ▸ hnpA)).1
        simpa using h1
      · intro h hh
        rw [hw] at hh
        have hb : h = ball := by simpa using hh
        subst hb
        exact ⟨rfl, Or.inr rfl⟩
    · by_cases h8 : s.ball_8_handle = some ball
      · -- eight-ball branch
        have hgoal : drop_ball s ball =
            ⟨removeBody s.world ball, s.holes, s.white_ball_handle,
              s.white_ball_handle_dropped, none,
              s.dropped_balls_handles ++ [ball],
              s.yellow_balls_handles, s.red_balls_handles⟩ := by
          simp [drop_ball, hd, hw, h8]
        rw [hgoal]
        have h2 : in_play_handles s =
            (s.white_ball_handle.toList ++ [ball] ++ s.red_balls_handles) ++
              s.yellow_balls_handles := by
          simp [in_play_handles, h8]
        have hny : ball ∉ s.yellow_balls_handles := by
          refine nodup_append_disjoint (h2 ▸ hnpA) ?_
          simp
        have hnr : ball ∉ s.red_balls_handles := by
          have h3 : ((s.white_ball_handle.toList ++ [ball]) ++
              s.red_balls_handles : List Nat).Nodup :=
            (List.nodup_append.mp (h2 ▸ hnpA)).1
          exact nodup_append_disjoint h3 (by simp)
        refine drop_finalize_inv s.white_ball_handle s.white_ball_handle_dropped
          none s.red_balls_handles s.yellow_balls_handles ?_ ?_ ?_ inv
        · have h1 : in_play_handles s =
              s.white_ball_handle.toList ++ [ball] ++
                s.red_balls_handles ++ s.yellow_balls_handles := by
            simp [in_play_handles, h8]
          rw [h1]
          exact ((((List.Sublist.refl _).append (List.nil_sublist _)).append
            (List.Sublist.refl _)).append (List.Sublist.refl _))
        · intro hh
          simp only [List.mem_append, Option.mem_toList, Option.mem_def,
            List.not_mem_nil, Option.toList_none] at hh
          rcases hh with ((hh | hh) | hh) | hh
          · exact hw hh
          · exact hh
          · exact hnr hh
          · exact hny hh
        · intro h hh
          have hx := hwd h hh
          exact ⟨hx.1, Or.inl hx.2⟩
      · by_cases hr : ball ∈ s.red_balls_handles
        · -- red-list branch
          have hgoal : drop_ball s ball =
              ⟨removeBody s.world ball, s.holes, s.white_ball_handle,
                s.white_ball_handle_dropped, s.ball_8_handle,
                s.dropped_balls_handles ++ [ball],
                s.yellow_balls_handles,
                s.red_balls_handles.filter (fun b => b ≠ ball)⟩ := by
            simp [drop_ball, hd, hw, h8, hr]
          rw [hgoal]
          have h2 : in_play_handles s =
              (s.white_ball_handle.toList ++ s.ball_8_handle.toList ++
                s.red_balls_handles) ++ s.yellow_balls_handles := by
            simp [in_play_handles]
          have hny : ball ∉ s.yellow_balls_handles := by
            refine nodup_append_disjoint (h2 ▸ hnpA) ?_
            simp [hr]
          refine drop_finalize_inv s.white_ball_handle
            s.white_ball_handle_dropped s.ball_8_handle
            (s.red_balls_handles.filter (fun b => b ≠ ball))
            s.yellow_balls_handles ?_ ?_ ?_ inv
          · exact ((((List.Sublist.refl _).append (List.Sublist.refl _)).append
              (List.filter_sublist _)).append (List.Sublist.refl _))
          · intro hh
            simp only [List.mem_append, Option.mem_toList, Option.mem_def,
              List.mem_filter, decide_eq_true_eq] at hh
            rcases hh with ((hh | hh) | hh) | hh
            · exact hw hh
            · exact h8 hh
            · exact hh.2 rfl
            · exact hny hh
          · intro h hh
            have hx := hwd h hh
            exact ⟨hx.1, Or.inl hx.2⟩
        · by_cases hy : ball ∈ s.yellow_balls_handles
          · -- yellow-list branch
            have hgoal : drop_ball s ball =
                ⟨removeBody s.world ball, s.holes, s.white_ball_handle,
                  s.white_ball_handle_dropped, s.ball_8_handle,
                  s.dropped_balls_handles ++ [ball],
                  s.yellow_balls_handles.filter (fun b => b ≠ ball),
                  s.red_balls_handles⟩ := by
              simp [drop_ball, hd, hw, h8, hr, hy]
            rw [hgoal]
            refine drop_finalize_inv s.white_ball_handle
              s.white_ball_handle_dropped s.ball_8_handle
              s.red_balls_handles
              (s.yellow_balls_handles.filter (fun b => b ≠ ball)) ?_ ?_ ?_ inv
            · exact ((((List.Sublist.refl _).append (List.Sublist.refl _)).append
                (List.Sublist.refl _)).append (List.filter_sublist _))
            · intro hh
              simp only [List.mem_append, Option.mem_toList, Option.mem_def,
                List.mem_filter, decide_eq_true_eq] at hh
              rcases hh with ((hh | hh) | hh) | hh
              · exact hw hh
              · exact h8 hh
              · exact hr hh
              · exact hh.2 rfl
            · intro h hh
              have hx := hwd h hh
              exact ⟨hx.1, Or.inl hx.2⟩
          · -- unknown-handle branch
            have hgoal : drop_ball s ball =
                ⟨removeBody s.world ball, s.holes, s.white_ball_handle,
                  s.white_ball_handle_dropped, s.ball_8_handle,
                  s.dropped_balls_handles ++ [ball],
                  s.yellow_balls_handles, s.red_balls_handles⟩ := by
              simp [drop_ball, hd, hw, h8, hr, hy]
            rw [hgoal]
            refine drop_finalize_inv s.white_ball_handle
              s.white_ball_handle_dropped s.ball_8_handle
              s.red_balls_handles s.yellow_balls_handles
              (List.Sublist.refl _) ?_ ?_ inv
            · intro hh
              simp only [List.mem_append, Option.mem_toList,
                Option.mem_def] at hh
              rcases hh with ((hh | hh) | hh) | hh
              · exact hw hh
              · exact h8 hh
              · exact hr hh
              · exact hy hh
            · intro h hh
              have hx := hwd h hh
              exact ⟨hx.1, Or.inl hx.2⟩


/-! ### Invariant preservation by `respawn_white_ball` -/

theorem respawn_preserves_inv {s : PoolTable α} (inv : RegistryInv s) {h : Nat}
    (hf : h ∉ liveHandles s.world) : RegistryInv (respawn_white_ball s h) := by
  obtain ⟨hnpA, hnpW, hlive, hnd, hdl, hwd⟩ := inv
  have htail : List.Sublist (s.ball_8_handle.toList ++ s.red_balls_handles ++
      s.yellow_balls_handles) (in_play_handles s) := by
    have h1 : in_play_handles s = s.white_ball_handle.toList ++
        (s.ball_8_handle.toList ++ s.red_balls_handles ++
          s.yellow_balls_handles) := by
      simp [in_play_handles]
    rw [h1]
    exact (List.nil_sublist _).append (List.Sublist.refl _)
  have htmem : ∀ a ∈ s.ball_8_handle.toList ++ s.red_balls_handles ++
      s.yellow_balls_handles, a ∈ in_play_handles s := fun a ha => htail.subset ha
  have hgoal : respawn_white_ball s h =
      ⟨addBody s.world h (mkBall (MARGIN_LEFT α + BORDER α + WIDTH α * (1 / 4))
          (MARGIN_TOP α + BORDER α + HEIGHT α * (1 / 2))),
        s.holes, some h, none, s.ball_8_handle,
        s.dropped_balls_handles.filter (fun b => b ≠ h),
        s.yellow_balls_handles, s.red_balls_handles⟩ := by
    simp [respawn_white_ball, add_ball]
  rw [hgoal]
  have hlive' : liveHandles (addBody s.world h
      (mkBall (MARGIN_LEFT α + BORDER α + WIDTH α * (1 / 4))
        (MARGIN_TOP α + BORDER α + HEIGHT α * (1 / 2)))) =
      liveHandles s.world ++ [h] := liveHandles_addBody _ _ _
  refine ⟨?_, ?_, ?_, ?_, ?_, ?_⟩
  · show (h :: (s.ball_8_handle.toList ++ s.red_balls_handles ++
      s.yellow_balls_handles)).Nodup
    refine List.nodup_cons.mpr ⟨?_, htail.nodup hnpA⟩
    intro hmem
    exact hf (hlive _ (htmem _ hmem))
  · rw [hlive']
    refine List.Nodup.append hnpW (List.nodup_singleton h) ?_
    intro a ha hb
    have : a = h := by simpa using hb
    exact (this ▸ hf) ha
  · intro a ha
    rw [hlive']
    have hip : a = h ∨ a ∈ s.ball_8_handle.toList ++ s.red_balls_handles ++
        s.yellow_balls_handles := by
      simpa [in_play_handles] using ha
    rcases hip with rfl | hm
    · simp
    · exact List.mem_append.mpr (Or.inl (hlive _ (htmem _ hm)))
  · intro a ha hmem
    have hmem' := List.mem_filter.mp hmem
    have hne : a ≠ h := by simpa using hmem'.2
    have hip : a = h ∨ a ∈ s.ball_8_handle.toList ++ s.red_balls_handles ++
        s.yellow_balls_handles := by
      simpa [in_play_handles] using ha
    rcases hip with rfl | hm
    · exact hne rfl
    · exact hnd _ (htmem _ hm) hmem'.1
  · intro a ha
    have ha' := List.mem_filter.mp ha
    have hne : a ≠ h := by simpa using ha'.2
    rw [hlive']
    intro hmem
    rcases List.mem_append.mp hmem with hm | hm
    · exact hdl _ ha'.1 hm
    · exact hne (by simpa using hm)
  · intro a ha
    simp at ha

/-! ### Totality and shape preservation of the per-tick phases -/

theorem mem_in_play_of_white {s : PoolTable α} {h : Nat}
    (hh : h ∈ s.white_ball_handle.toList) : h ∈ in_play_handles s := by
  simp only [in_play_handles, List.mem_append]
  exact Or.inl (Or.inl (Or.inl hh))

theorem mem_in_play_of_eight {s : PoolTable α} {h : Nat}
    (hh : h ∈ s.ball_8_handle.toList) : h ∈ in_play_handles s := by
  simp only [in_play_handles, List.mem_append]
  exact Or.inl (Or.inl (Or.inr hh))

theorem mem_in_play_of_red {s : PoolTable α} {h : Nat}
    (hh : h ∈ s.red_balls_handles) : h ∈ in_play_handles s := by
  simp only [in_play_handles, List.mem_append]
  exact Or.inl (Or.inr hh)

theorem mem_in_play_of_yellow {s : PoolTable α} {h : Nat}
    (hh : h ∈ s.yellow_balls_handles) : h ∈ in_play_handles s := by
  simp only [in_play_handles, List.mem_append]
  exact Or.inr hh

theorem z_gravity_apply_force_some {w : World α} {h : Nat} (inertia : α)
    (hl : h ∈ liveHandles w) :
    ∃ w', z_gravity_apply_force inertia w h = some w' ∧
      liveHandles w' = liveHandles w := by
  cases hb : lookupBody w h with
  | none => exact absurd (lookupBody_eq_none_iff.mp hb) (not_not_intro hl)
  | some b =>
      simp only [z_gravity_apply_force, hb]
      exact ⟨_, rfl, liveHandles_updateBody _ _ _⟩

theorem drag_list_some (inertia : α) :
    ∀ (hs : List Nat) (w : World α), (∀ h ∈ hs, h ∈ liveHandles w) →
      ∃ w', drag_list inertia w hs = some w' ∧
        liveHandles w' = liveHandles w := by
  intro hs
  induction hs with
  | nil => exact fun w _ => ⟨w, rfl, rfl⟩
  | cons h t ih =>
      intro w hmem
      obtain ⟨w1, hw1, hlive1⟩ :=
        z_gravity_apply_force_some inertia (hmem h (by simp))
      obtain ⟨w2, hw2, hlive2⟩ := ih w1 (by
        intro x hx
        rw [hlive1]
        exact hmem x (by simp [hx]))
      exact ⟨w2, by simp [drag_list, hw1, hw2], by rw [hlive2, hlive1]⟩

theorem drag_opt_some (inertia : α) (w : World α) (o : Option Nat)
    (hmem : ∀ h ∈ o.toList, h ∈ liveHandles w) :
    ∃ w', drag_opt inertia w o = some w' ∧ liveHandles w' = liveHandles w := by
  cases o with
  | none => exact ⟨w, rfl, rfl⟩
  | some h =>
      exact z_gravity_apply_force_some inertia (hmem h (by simp))

theorem step_drag_some (inertia : α) {s : PoolTable α}
    (hlive : ∀ h ∈ in_play_handles s, h ∈ liveHandles s.world) :
    ∃ s', step_drag inertia s = some s' ∧ SameShape s s' := by
  have hwm : ∀ h ∈ s.white_ball_handle.toList, h ∈ liveHandles s.world :=
    fun h hh => hlive h (mem_in_play_of_white hh)
  have h8m : ∀ h ∈ s.ball_8_handle.toList, h ∈ liveHandles s.world :=
    fun h hh => hlive h (mem_in_play_of_eight hh)
  have hym : ∀ h ∈ s.yellow_balls_handles, h ∈ liveHandles s.world :=
    fun h hh => hlive h (mem_in_play_of_yellow hh)
  have hrm : ∀ h ∈ s.red_balls_handles, h ∈ liveHandles s.world :=
    fun h hh => hlive h (mem_in_play_of_red hh)
  obtain ⟨w1, hw1, hl1⟩ := drag_opt_some inertia s.world s.white_ball_handle hwm
  obtain ⟨w2, hw2, hl2⟩ := drag_opt_some inertia w1 s.ball_8_handle
    (fun h hh => hl1 ▸ h8m h hh)
  obtain ⟨w3, hw3, hl3⟩ := drag_list_some inertia s.yellow_balls_handles w2
    (fun h hh => (hl2.trans hl1) ▸ hym h hh)
  obtain ⟨w4, hw4, hl4⟩ := drag_list_some inertia s.red_balls_handles w3
    (fun h hh => (hl3.trans (hl2.trans hl1)) ▸ hrm h hh)
  refine ⟨{ s with world := w4 }, ?_, ?_⟩
  · simp [step_drag, hw1, hw2, hw3, hw4]
  · exact ⟨(hl4.trans (hl3.trans (hl2.trans hl1))), rfl, rfl, rfl, rfl, rfl,
      rfl, rfl⟩

theorem speed_up_inactive_ball_some {w : World α} {h : Nat}
    (hl : h ∈ liveHandles w) :
    ∃ w', speed_up_inactive_ball w h = some w' ∧
      liveHandles w' = liveHandles w := by
  cases hb : lookupBody w h with
  | none => exact absurd (lookupBody_eq_none_iff.mp hb) (not_not_intro hl)
  | some b =>
      by_cases h1 : b.velx = 0 ∧ b.vely = 0
      · exact ⟨w, by simp [speed_up_inactive_ball, hb, h1], rfl⟩
      · by_cases h2 : |b.velx| < 150 ∧ |b.vely| < 150
        · simp only [speed_up_inactive_ball, hb, if_neg h1, if_pos h2]
          exact ⟨_, rfl, liveHandles_updateBody _ _ _⟩
        · exact ⟨w, by simp [speed_up_inactive_ball, hb, h1, h2], rfl⟩

theorem speed_up_list_some :
    ∀ (hs : List Nat) (w : World α), (∀ h ∈ hs, h ∈ liveHandles w) →
      ∃ w', speed_up_list w hs = some w' ∧
        liveHandles w' = liveHandles w := by
  intro hs
  induction hs with
  | nil => exact fun w _ => ⟨w, rfl, rfl⟩
  | cons h t ih =>
      intro w hmem
      obtain ⟨w1, hw1, hlive1⟩ := speed_up_inactive_ball_some (hmem h (by simp))
      obtain ⟨w2, hw2, hlive2⟩ := ih w1 (by
        intro x hx
        rw [hlive1]
        exact hmem x (by simp [hx]))
      exact ⟨w2, by simp [speed_up_list, hw1, hw2], by rw [hlive2, hlive1]⟩

theorem speed_up_opt_some (w : World α) (o : Option Nat)
    (hmem : ∀ h ∈ o.toList, h ∈ liveHandles w) :
    ∃ w', speed_up_opt w o = some w' ∧ liveHandles w' = liveHandles w := by
  cases o with
  | none => exact ⟨w, rfl, rfl⟩
  | some h => exact speed_up_inactive_ball_some (hmem h (by simp))

theorem speed_up_inactive_balls_some {s : PoolTable α}
    (hlive : ∀ h ∈ in_play_handles s, h ∈ liveHandles s.world) :
    ∃ s', speed_up_inactive_balls s = some s' ∧ SameShape s s' := by
  have hwm : ∀ h ∈ s.white_ball_handle.toList, h ∈ liveHandles s.world :=
    fun h hh => hlive h (mem_in_play_of_white hh)
  have h8m : ∀ h ∈ s.ball_8_handle.toList, h ∈ liveHandles s.world :=
    fun h hh => hlive h (mem_in_play_of_eight hh)
  have hym : ∀ h ∈ s.yellow_balls_handles, h ∈ liveHandles s.world :=
    fun h hh => hlive h (mem_in_play_of_yellow hh)
  have hrm : ∀ h ∈ s.red_balls_handles, h ∈ liveHandles s.world :=
    fun h hh => hlive h (mem_in_play_of_red hh)
  obtain ⟨w1, hw1, hl1⟩ := speed_up_opt_some s.world s.white_ball_handle hwm
  obtain ⟨w2, hw2, hl2⟩ := speed_up_opt_some w1 s.ball_8_handle
    (fun h hh => hl1 ▸ h8m h hh)
  obtain ⟨w3, hw3, hl3⟩ := speed_up_list_some s.red_balls_handles w2
    (fun h hh => (hl2.trans hl1) ▸ hrm h hh)
  obtain ⟨w4, hw4, hl4⟩ := speed_up_list_some s.yellow_balls_handles w3
    (fun h hh => (hl3.trans (hl2.trans hl1)) ▸ hym h hh)
  refine ⟨{ s with world := w4 }, ?_, ?_⟩
  · simp [speed_up_inactive_balls, hw1, hw2, hw3, hw4]
  · exact ⟨(hl4.trans (hl3.trans (hl2.trans hl1))), rfl, rfl, rfl, rfl, rfl,
      rfl, rfl⟩

theorem is_active_some {s : PoolTable α} {h : Nat}
    (hl : h ∈ liveHandles s.world) :
    ∃ b, is_active s (some h) = some b := by
  cases hb : lookupBody s.world h with
  | none => exact absurd (lookupBody_eq_none_iff.mp hb) (not_not_intro hl)
  | some b => exact ⟨b.active, by simp [is_active, hb]⟩

theorem any_active_some {s : PoolTable α} :
    ∀ {hs : List Nat}, (∀ h ∈ hs, h ∈ liveHandles s.world) →
      ∃ b, any_active s hs = some b := by
  intro hs
  induction hs with
  | nil => exact fun _ => ⟨false, rfl⟩
  | cons h t ih =>
      intro hmem
      obtain ⟨b, hb⟩ := is_active_some (hmem h (by simp))
      cases b with
      | true => exact ⟨true, by simp [any_active, hb]⟩
      | false =>
          obtain ⟨b2, hb2⟩ := ih (fun x hx => hmem x (by simp [hx]))
          exact ⟨b2, by simp [any_active, hb, hb2]⟩

theorem has_force_some {s : PoolTable α}
    (hlive : ∀ h ∈ in_play_handles s, h ∈ liveHandles s.world) :
    ∃ b, has_force s = some b := by
  have hwm : ∀ h ∈ s.white_ball_handle.toList, h ∈ liveHandles s.world :=
    fun h hh => hlive h (mem_in_play_of_white hh)
  have h8m : ∀ h ∈ s.ball_8_handle.toList, h ∈ liveHandles s.world :=
    fun h hh => hlive h (mem_in_play_of_eight hh)
  have hym : ∀ h ∈ s.yellow_balls_handles, h ∈ liveHandles s.world :=
    fun h hh => hlive h (mem_in_play_of_yellow hh)
  have hrm : ∀ h ∈ s.red_balls_handles, h ∈ liveHandles s.world :=
    fun h hh => hlive h (mem_in_play_of_red hh)
  have hwa : ∃ b, is_active s s.white_ball_handle = some b := by
    cases hw : s.white_ball_handle with
    | none => exact ⟨false, rfl⟩
    | some x => exact is_active_some (hwm x (by simp [hw]))
  have h8a : ∃ b, is_active s s.ball_8_handle = some b := by
    cases h8 : s.ball_8_handle with
    | none => exact ⟨false, rfl⟩
    | some x => exact is_active_some (h8m x (by simp [h8]))
  obtain ⟨bw, hbw⟩ := hwa
  cases bw with
  | true => exact ⟨true, by simp [has_force, hbw]⟩
  | false =>
      obtain ⟨b8, hb8⟩ := h8a
      cases b8 with
      | true => exact ⟨true, by simp [has_force, hbw, hb8]⟩
      | false =>
          obtain ⟨br, hbr⟩ := any_active_some hrm
          cases br with
          | true => exact ⟨true, by simp [has_force, hbw, hb8, hbr]⟩
          | false =>
              obtain ⟨by2, hby⟩ := any_active_some hym
              exact ⟨by2, by simp [has_force, hbw, hb8, hbr, hby]⟩

theorem step_stabilize_some {s : PoolTable α} (inv : RegistryInv s) :
    ∃ s', step_stabilize s = some s' ∧ SameShape s s' := by
  obtain ⟨b, hb⟩ := has_force_some inv.2.2.1
  cases b with
  | false => exact ⟨s, by simp [step_stabilize, hb], sameShape_refl s⟩
  | true =>
      obtain ⟨s', hs', hshape⟩ := speed_up_inactive_balls_some inv.2.2.1
      exact ⟨s', by simp [step_stabilize, hb, hs'], hshape⟩

theorem foldl_drop_preserves_inv :
    ∀ (l : List Nat) {s : PoolTable α}, RegistryInv s →
      RegistryInv (l.foldl drop_ball s) := by
  intro l
  induction l with
  | nil => exact fun inv => inv
  | cons h t ih => exact fun inv => ih (drop_ball_preserves_inv inv h)

theorem step_drops_preserves_inv {s : PoolTable α} (inv : RegistryInv s)
    (events : List ContactEvent) : RegistryInv (step_drops s events) :=
  foldl_drop_preserves_inv _ inv

theorem step_total_inv {s : PoolTable α} (inv : RegistryInv s)
    (phys : World α → World α)
    (hphys : liveHandles (phys s.world) = liveHandles s.world)
    (events : List ContactEvent) (inertia : α) :
    ∃ s', step s phys events inertia = some s' ∧ RegistryInv s' := by
  set s0 : PoolTable α := { s with world := phys s.world } with hs0
  have hshape0 : SameShape s s0 := ⟨hphys, rfl, rfl, rfl, rfl, rfl, rfl, rfl⟩
  have inv0 : RegistryInv s0 := registryInv_of_sameShape hshape0 inv
  obtain ⟨s1, hs1, hshape1⟩ := step_drag_some inertia (s := s0) inv0.2.2.1
  have inv1 : RegistryInv s1 := registryInv_of_sameShape hshape1 inv0
  have inv2 : RegistryInv (step_drops s1 events) :=
    step_drops_preserves_inv inv1 events
  obtain ⟨s3, hs3, hshape3⟩ := step_stabilize_some inv2
  refine ⟨s3, ?_, registryInv_of_sameShape hshape3 inv2⟩
  simp [step, hs1, hs3]

/-! ### Pocket-event helper lemmas -/

theorem drop_ball_holes (s : PoolTable α) (c : Nat) :
    (drop_ball s c).holes = s.holes := by
  by_cases h1 : c ∈ s.dropped_balls_handles
  · simp [drop_ball, h1]
  · by_cases h2 : s.white_ball_handle = some c <;>
      by_cases h3 : s.ball_8_handle = some c <;>
      by_cases h4 : c ∈ s.red_balls_handles <;>
      by_cases h5 : c ∈ s.yellow_balls_handles <;>
      simp [drop_ball, h1, h2, h3, h4, h5]

theorem handle_contact_event_drop (s : PoolTable α) (c : Nat) (e : ContactEvent) :
    handle_contact_event (drop_ball s c) e = handle_contact_event s e := by
  cases e with
  | started b1 b2 => simp [handle_contact_event, drop_ball_holes]
  | stopped b1 b2 => rfl

theorem drop_ball_slots_unregistered {s : PoolTable α} {c : Nat}
    (hc : c ∉ in_play_handles s) :
    (drop_ball s c).white_ball_handle = s.white_ball_handle ∧
    (drop_ball s c).ball_8_handle = s.ball_8_handle ∧
    (drop_ball s c).red_balls_handles = s.red_balls_handles ∧
    (drop_ball s c).yellow_balls_handles = s.yellow_balls_handles := by
  have hw : ¬s.white_ball_handle = some c :=
    fun hh => hc (mem_in_play_of_white (by simp [hh]))
  have h8 : ¬s.ball_8_handle = some c :=
    fun hh => hc (mem_in_play_of_eight (by simp [hh]))
  have hr : c ∉ s.red_balls_handles := fun hh => hc (mem_in_play_of_red hh)
  have hy : c ∉ s.yellow_balls_handles := fun hh => hc (mem_in_play_of_yellow hh)
  by_cases hd : c ∈ s.dropped_balls_handles
  · simp [drop_ball, hd]
  · simp [drop_ball, hd, hw, h8, hr, hy]

theorem step_drops_eq_interleaved :
    ∀ (events : List ContactEvent) (s : PoolTable α),
      step_drops s events = step_drops_interleaved s events := by
  intro events
  induction events with
  | nil => intro s; rfl
  | cons e t ih =>
      intro s
      cases hc : handle_contact_event s e with
      | none =>
          have h1 : step_drops s (e :: t) = step_drops s t := by
            simp [step_drops, List.filterMap_cons, hc]
          have h2 : step_drops_interleaved s (e :: t) =
              step_drops_interleaved s t := by
            simp [step_drops_interleaved, hc]
          rw [h1, h2, ih]
      | some c =>
          have hfun : (fun e2 => handle_contact_event (drop_ball s c) e2) =
              (fun e2 => handle_contact_event s e2) :=
            funext (fun e2 => handle_contact_event_drop s c e2)
          have h1 : step_drops s (e :: t) = step_drops (drop_ball s c) t := by
            simp [step_drops, List.filterMap_cons, hc, hfun]
          have h2 : step_drops_interleaved s (e :: t) =
              step_drops_interleaved (drop_ball s c) t := by
            simp [step_drops_interleaved, hc]
          rw [h1, h2, ih]

/-- C5: pocketing is idempotent.  `drop_ball` applied twice to the same
handle yields exactly the state of a single application — the second
call hits the dropped-list guard (line 427) and returns unchanged. -/
theorem c5_drop_ball_idempotent (s : PoolTable α) (h : Nat) :
    drop_ball (drop_ball s h) h = drop_ball s h := by
  by_cases hd : h ∈ s.dropped_balls_handles
  · simp [drop_ball, hd]
  · have hmem : h ∈ (drop_ball s h).dropped_balls_handles := by
      simp [drop_ball, hd]
    conv_lhs => rw [drop_ball]
    simp [hmem]

/-- An accepted `shoot` writes exactly the given components as the white
ball's velocity. -/
theorem shoot_sets_velocity {s : PoolTable α} {h : Nat} {b : Body α}
    (hw : s.white_ball_handle = some h) (hb : lookupBody s.world h = some b)
    (fx fy : α) :
    ∃ s', shoot s fx fy = some s' ∧
      lookupBody s'.world h = some { b with velx := fx, vely := fy } := by
  simp only [shoot, hw, hb]
  refine ⟨_, rfl, ?_⟩
  show lookupBody (updateBody _ s.world h) h = _
  rw [lookupBody_updateBody_self, hb]
  rfl

/-! ### The claims -/

/-- C1: Registry invariant.  If a state satisfies the registry invariant
(in-play handles pairwise distinct, each owning exactly one live body,
absent from the dropped record; dropped handles bodiless; the
dropped-white marker implies white is out of play and recorded), then
the invariant still holds after `drop_ball` on any handle, after
`respawn_white_ball` with any freshly allocated handle, and after a full
tick (`step`), which moreover never panics: the engine step is only
assumed to preserve the set of live bodies. -/
theorem c1_registry_invariant (s : PoolTable α) (ball h : Nat)
    (phys : World α → World α) (events : List ContactEvent) (inertia : α)
    (inv : RegistryInv s) :
    RegistryInv (drop_ball s ball) ∧
    (h ∉ liveHandles s.world → RegistryInv (respawn_white_ball s h)) ∧
    (liveHandles (phys s.world) = liveHandles s.world →
      ∃ s', step s phys events inertia = some s' ∧ RegistryInv s') :=
  ⟨drop_ball_preserves_inv inv ball,
   fun hf => respawn_preserves_inv inv hf,
   fun hp => step_total_inv inv phys hp events inertia⟩

/-- C1 witness: the invariant facts instantiated on the concrete fresh
rack, dropping red ball 3, respawning at fresh handle 16, and ticking
with the identity engine step and no contact events. -/
theorem c1_registry_invariant_witness :
    RegistryInv (drop_ball rackQ 3) ∧
    RegistryInv (respawn_white_ball rackQ 16) ∧
    ∃ s', step rackQ id [] 1 = some s' ∧ RegistryInv s' := by
  obtain ⟨a, b, c⟩ := c1_registry_invariant rackQ 3 16 id [] 1 (by decide)
  exact ⟨a, b (by decide), c rfl⟩

/-- C2 counterexample: `PoolTable::shoot` performs no internal re-check
of the rest invariant.  On a state whose white ball is active
(`has_force` is `some true`), `shoot` still rewrites the white ball's
velocity from `(0, 0)` to `(5, 7)` — it is not a no-op, so the claim
that the controller defends internally is false of the code. -/
theorem c2_counterexample :
    has_force stActive = some true ∧
    (lookupBody stActive.world 0).map (fun b => (b.velx, b.vely)) =
      some (0, 0) ∧
    (shoot stActive 5 7).map
        (fun s' => (lookupBody s'.world 0).map (fun b => (b.velx, b.vely))) =
      some (some (5, 7)) :=
  ⟨rfl, rfl, rfl⟩

/-- C2 (amended): the no-op gating lives in the caller, not in `shoot`.
The `Return` branch of `PoolGameUI::update` issues the shot only when
`has_force()` is false, so with `has_force() == true` the table state is
returned unchanged; `PoolTable::shoot` itself unconditionally sets the
velocity and panics (`unwrap` on `None`) when the white ball is not in
play. -/
theorem c2_shot_gating_in_caller (s : PoolTable α) (fx fy : α)
    (hforce : has_force s = some true) :
    update_shot s fx fy = some s ∧
    (∀ s₂ : PoolTable α, s₂.white_ball_handle = none →
      shoot s₂ fx fy = none) := by
  constructor
  · simp [update_shot, hforce]
  · intro s₂ h
    simp [shoot, h]

/-- C2 witness: the gated update on the active table returns it
unchanged, and `shoot` on a table without a white ball panics. -/
theorem c2_shot_gating_in_caller_witness :
    update_shot stActive (5 : ℚ) 7 = some stActive ∧
    shoot (emptyTable ℚ) 5 7 = none := by
  obtain ⟨a, b⟩ := c2_shot_gating_in_caller stActive (5 : ℚ) 7 (by decide)
  exact ⟨a, b (emptyTable ℚ) rfl⟩

/-- C3: Pocket Event Resolver.  For a contact-started event, if exactly
one body is a pocket sensor the other is the candidate; neither-sensor
events produce nothing; a candidate that maps to no registered ball
pockets no ball (all four registry slots are untouched); candidate
extraction is insensitive to drops (it reads only the hole list, which
`drop_ball` never modifies), hence collecting all of a tick's candidates
before applying any drop is observationally equal to the interleaved
processing — event iteration never observes a mid-iteration removal. -/
theorem c3_pocket_event_resolver (s : PoolTable α) (b1 b2 c : Nat)
    (e : ContactEvent) (events : List ContactEvent) :
    (b1 ∈ s.holes → b2 ∉ s.holes →
      handle_contact_event s (.started b1 b2) = some b2) ∧
    (b2 ∈ s.holes → b1 ∉ s.holes →
      handle_contact_event s (.started b1 b2) = some b1) ∧
    (b1 ∉ s.holes → b2 ∉ s.holes →
      handle_contact_event s (.started b1 b2) = none) ∧
    (c ∉ in_play_handles s →
      (drop_ball s c).white_ball_handle = s.white_ball_handle ∧
      (drop_ball s c).ball_8_handle = s.ball_8_handle ∧
      (drop_ball s c).red_balls_handles = s.red_balls_handles ∧
      (drop_ball s c).yellow_balls_handles = s.yellow_balls_handles) ∧
    handle_contact_event (drop_ball s c) e = handle_contact_event s e ∧
    step_drops s events = step_drops_interleaved s events := by
  refine ⟨?_, ?_, ?_, ?_, handle_contact_event_drop s c e,
    step_drops_eq_interleaved events s⟩
  · intro h1 _
    simp [handle_contact_event, h1]
  · intro h2 h1
    simp [handle_contact_event, h1, h2]
  · intro h1 h2
    simp [handle_contact_event, h1, h2]
  · exact fun hc => drop_ball_slots_unregistered hc

/-- C3 witness: the resolver facts on the rack with a pocket sensor 99:
the white ball (body 0) paired with the sensor on either side is the
candidate, a ball-ball contact yields none, dropping the unregistered
body 99 touches no registry slot, and a two-event tick dropped
collect-then-apply equals interleaved processing. -/
theorem c3_pocket_event_resolver_witness :
    handle_contact_event rackWithHole (.started 99 0) = some 0 ∧
    handle_contact_event rackWithHole (.started 0 99) = some 0 ∧
    handle_contact_event rackWithHole (.started 0 1) = none ∧
    ((drop_ball rackWithHole 99).white_ball_handle =
        rackWithHole.white_ball_handle ∧
      (drop_ball rackWithHole 99).ball_8_handle = rackWithHole.ball_8_handle ∧
      (drop_ball rackWithHole 99).red_balls_handles =
        rackWithHole.red_balls_handles ∧
      (drop_ball rackWithHole 99).yellow_balls_handles =
        rackWithHole.yellow_balls_handles) ∧
    handle_contact_event (drop_ball rackWithHole 5) (.started 99 0) =
      handle_contact_event rackWithHole (.started 99 0) ∧
    step_drops rackWithHole [.started 99 0, .started 99 5] =
      step_drops_interleaved rackWithHole [.started 99 0, .started 99 5] :=
  ⟨(c3_pocket_event_resolver rackWithHole 99 0 99 (.started 99 0) []).1
      (by decide) (by decide),
   (c3_pocket_event_resolver rackWithHole 0 99 99 (.started 99 0) []).2.1
      (by decide) (by decide),
   (c3_pocket_event_resolver rackWithHole 0 1 99 (.started 99 0) []).2.2.1
      (by decide) (by decide),
   (c3_pocket_event_resolver rackWithHole 0 1 99 (.started 99 0) []).2.2.2.1
      (by decide),
   (c3_pocket_event_resolver rackWithHole 0 1 5 (.started 99 0) []).2.2.2.2.1,
   (c3_pocket_event_resolver rackWithHole 0 1 5 (.started 99 0)
      [.started 99 0, .started 99 5]).2.2.2.2.2⟩

/-- C4: Rest Stabilizer.  For a body reported inactive with a nonzero
velocity whose two components are both strictly below 150 in magnitude,
`speed_up_inactive_ball` rewrites its velocity to exactly `(0, 0)` and
touches no other body; a body already exactly at rest is returned
without a write; a body with either component at or above 150 is left
unchanged; and the stabilisation phase of `step` runs exactly when
`has_force()` reports a ball still in motion. -/
theorem c4_rest_stabilizer (w : World α) (hnd : Nat) (b : Body α)
    (s : PoolTable α) (hb : lookupBody w hnd = some b) :
    (b.active = false → ¬(b.velx = 0 ∧ b.vely = 0) →
      |b.velx| < 150 → |b.vely| < 150 →
      ∃ w', speed_up_inactive_ball w hnd = some w' ∧
        (lookupBody w' hnd).map (fun bb => (bb.velx, bb.vely)) =
          some (0, 0) ∧
        ∀ k, k ≠ hnd → lookupBody w' k = lookupBody w k) ∧
    (b.velx = 0 → b.vely = 0 → speed_up_inactive_ball w hnd = some w) ∧
    (150 ≤ |b.velx| ∨ 150 ≤ |b.vely| →
      speed_up_inactive_ball w hnd = some w) ∧
    (has_force s = some true →
      step_stabilize s = speed_up_inactive_balls s) ∧
    (has_force s = some false → step_stabilize s = some s) := by
  refine ⟨?_, ?_, ?_, ?_, ?_⟩
  · intro _ hnz h1 h2
    refine ⟨updateBody (fun bb => { bb with velx := 0, vely := 0 }) w hnd,
      ?_, ?_, ?_⟩
    · simp [speed_up_inactive_ball, hb, hnz, h1, h2]
    · rw [lookupBody_updateBody_self, hb]
      rfl
    · intro k hk
      exact lookupBody_updateBody_ne _ hk
  · intro h1 h2
    simp [speed_up_inactive_ball, hb, h1, h2]
  · intro hge
    have hnz : ¬(b.velx = 0 ∧ b.vely = 0) := by
      rintro ⟨hx, hy⟩
      rcases hge with hge | hge
      · rw [hx] at hge
        simp at hge
        exact absurd hge (by norm_num)
      · rw [hy] at hge
        simp at hge
        exact absurd hge (by norm_num)
    have hlt : ¬(|b.velx| < 150 ∧ |b.vely| < 150) := by
      rintro ⟨hx, hy⟩
      rcases hge with hge | hge
      · exact absurd hx (not_lt.mpr hge)
      · exact absurd hy (not_lt.mpr hge)
    simp [speed_up_inactive_ball, hb, hnz, hlt]
  · intro h
    simp [step_stabilize, h]
  · intro h
    simp [step_stabilize, h]

/-- C4 witness: the inactive body with velocity `(120, 40)` is snapped
to `(0, 0)`; the body at rest and the body with velocity `(200, 10)` are
returned without a write; the stabiliser phase runs on the moving table
and is skipped on the idle one. -/
theorem c4_rest_stabilizer_witness :
    (∃ w', speed_up_inactive_ball w120 0 = some w' ∧
      (lookupBody w' 0).map (fun bb => (bb.velx, bb.vely)) = some (0, 0) ∧
      ∀ k, k ≠ 0 → lookupBody w' k = lookupBody w120 k) ∧
    speed_up_inactive_ball wzero 0 = some wzero ∧
    speed_up_inactive_ball w200 0 = some w200 ∧
    step_stabilize stActive = speed_up_inactive_balls stActive ∧
    step_stabilize stIdle = some stIdle :=
  ⟨(c4_rest_stabilizer w120 0 body120 stActive (by decide)).1 rfl
      (by decide) (by decide) (by decide),
   (c4_rest_stabilizer wzero 0 body0 stActive (by decide)).2.1 rfl rfl,
   (c4_rest_stabilizer w200 0 body200 stActive (by decide)).2.2.1
      (Or.inl (by decide)),
   (c4_rest_stabilizer w120 0 body120 stActive (by decide)).2.2.2.1
      (by decide),
   (c4_rest_stabilizer w120 0 body120 stIdle (by decide)).2.2.2.2
      (by decide)⟩

/-- C6: shot kinematics.  An accepted shot (rest invariant holds, white
ball in play) through the `Return` branch of `PoolGameUI::update` sets
the white ball's velocity to exactly
`(p^1.5 * cos θ, p^1.5 * sin θ)` where `θ` is the aim angle in radians
(`cane_rotation.to_radians()`) and `p` the power scalar. -/
theorem c6_shot_kinematics (s : PoolTable ℝ) (rot p : ℝ) (h : Nat)
    (b : Body ℝ) (hforce : has_force s = some false)
    (hw : s.white_ball_handle = some h)
    (hb : lookupBody s.world h = some b) :
    ∃ s', update_return_pressed s rot p = some s' ∧
      lookupBody s'.world h =
        some { b with
          velx := p ^ (1.5 : ℝ) * Real.cos (rot * (Real.pi / 180)),
          vely := p ^ (1.5 : ℝ) * Real.sin (rot * (Real.pi / 180)) } := by
  obtain ⟨s', hs', hlook⟩ :=
    shoot_sets_velocity hw hb (cane_velocity rot p).1 (cane_velocity rot p).2
  have hgate : update_return_pressed s rot p =
      shoot s (cane_velocity rot p).1 (cane_velocity rot p).2 := by
    simp [update_return_pressed, update_shot, hforce]
  refine ⟨s', by rw [hgate, hs'], ?_⟩
  rw [hlook]
  simp [cane_velocity]

/-- C6 witness: the zero-angle zero-power shot on the idle table
(Scenario A) applies and yields the stated velocity expression. -/
theorem c6_shot_kinematics_witness :
    ∃ s', update_return_pressed stIdleR 0 0 = some s' ∧
      lookupBody s'.world 0 =
        some { (⟨0, 0, 0, 0, 0, 0, false⟩ : Body ℝ) with
          velx := (0 : ℝ) ^ (1.5 : ℝ) * Real.cos (0 * (Real.pi / 180)),
          vely := (0 : ℝ) ^ (1.5 : ℝ) * Real.sin (0 * (Real.pi / 180)) } :=
  c6_shot_kinematics stIdleR 0 0 0 ⟨0, 0, 0, 0, 0, 0, false⟩ rfl rfl rfl

/-- C7 counterexample: the claim that drag on an invalidated handle is
"skipped as a silent no-op" is false of the code.
`ZGravity::apply_force` contains no guard: on a handle with no body
(here: any handle in an empty world) the body-part access panics,
modelled as `none` — in particular the call does not return any world at
all, let alone an unchanged one. -/
theorem c7_counterexample :
    z_gravity_apply_force (1 : ℚ) [] 0 = none ∧
    (z_gravity_apply_force (1 : ℚ) [] 0 = some []) = False :=
  ⟨rfl, by simp [z_gravity_apply_force, lookupBody]⟩

/-- C7 (amended): the absence of drag-on-dead-handle errors is
guaranteed by ordering and the registry invariant, not by a guard: drag
in `step` runs before any drop of the same tick and only over the
registered in-play handles, and under the registry invariant every such
handle has a live body, so every per-handle application succeeds and the
whole drag phase of `step` never panics. -/
theorem c7_drag_guarded_by_invariant (s : PoolTable α) (inertia : α)
    (inv : RegistryInv s) :
    (∀ h ∈ in_play_handles s, ∃ w',
        z_gravity_apply_force inertia s.world h = some w' ∧
        liveHandles w' = liveHandles s.world) ∧
    (∃ s', step_drag inertia s = some s' ∧ SameShape s s') :=
  ⟨fun h hh => z_gravity_apply_force_some inertia (inv.2.2.1 h hh),
   step_drag_some inertia inv.2.2.1⟩

/-- C7 witness: on the concrete fresh rack every in-play drag
application succeeds and the drag phase completes. -/
theorem c7_drag_guarded_by_invariant_witness :
    (∀ h ∈ in_play_handles rackQ, ∃ w',
        z_gravity_apply_force (1 : ℚ) rackQ.world h = some w' ∧
        liveHandles w' = liveHandles rackQ.world) ∧
    (∃ s', step_drag (1 : ℚ) rackQ = some s' ∧ SameShape rackQ s') :=
  c7_drag_guarded_by_invariant rackQ 1 (by decide)

/-- C8 (amended): `initialize_balls` on the fresh table creates exactly
sixteen dynamic bodies — one white, one eight, seven red, seven yellow —
at the deterministic rack coordinates, all in play and satisfying the
registry invariant.  (A second invocation does not fail; see the
counterexample.) -/
theorem c8_initial_rack :
    rackQ.white_ball_handle = some 0 ∧
    rackQ.ball_8_handle = some 5 ∧
    rackQ.red_balls_handles = [1, 2, 6, 7, 9, 13, 15] ∧
    rackQ.yellow_balls_handles = [3, 4, 8, 10, 11, 12, 14] ∧
    rackQ.world =
      [(0, mkBall 3210 3780), (1, mkBall 6590 3780), (2, mkBall 6830 3660),
       (3, mkBall 6830 3900), (4, mkBall 7070 3540), (5, mkBall 7070 3780),
       (6, mkBall 7070 4020), (7, mkBall 7310 3420), (8, mkBall 7310 3660),
       (9, mkBall 7310 3900), (10, mkBall 7310 4140), (11, mkBall 7550 3300),
       (12, mkBall 7550 3540), (13, mkBall 7550 3780), (14, mkBall 7550 4020),
       (15, mkBall 7550 4260)] ∧
    RegistryInv rackQ := by
  refine ⟨rfl, rfl, rfl, rfl, ?_, by decide⟩
  norm_num [rackQ, init_balls, emptyTable, add_ball, addBody, mkBall,
    MARGIN_LEFT, MARGIN_TOP, BORDER, WIDTH, HEIGHT, BALL_SIZE]

/-- C8 counterexample: invoking `initialize_balls` a second time without
a reset does not fail fatally — there is no assertion or panic in the
source.  It allocates sixteen further bodies (the world then holds 32),
overwrites the registry slots with the new handles, and leaves the first
rack's bodies live but unregistered (the old white body 0 is still in
the world yet no longer in play). -/
theorem c8_counterexample :
    (liveHandles (init_balls rackQ 16).world).length = 32 ∧
    (init_balls rackQ 16).white_ball_handle = some 16 ∧
    0 ∈ liveHandles (init_balls rackQ 16).world ∧
    0 ∉ in_play_handles (init_balls rackQ 16) := by
  refine ⟨by decide, rfl, by decide, by decide⟩

/-- C9: white-ball respawn.  With any freshly allocated handle,
`respawn_white_ball` registers the white ball again (`white_ball_handle`
becomes `Some`), clears the dropped-white marker and the dropped-list
entry for the reused handle, and creates the new body at exactly the
canonical spawn coordinate
`(MARGIN_LEFT + BORDER + WIDTH * 0.25, MARGIN_TOP + BORDER + HEIGHT * 0.5)`
— the same position the white ball received in the initial rack. -/
theorem c9_respawn_white (s : PoolTable α) (h : Nat)
    (hf : h ∉ liveHandles s.world) :
    (respawn_white_ball s h).white_ball_handle = some h ∧
    (respawn_white_ball s h).white_ball_handle_dropped = none ∧
    h ∉ (respawn_white_ball s h).dropped_balls_handles ∧
    lookupBody (respawn_white_ball s h).world h =
      some (mkBall (MARGIN_LEFT α + BORDER α + WIDTH α * (1 / 4))
        (MARGIN_TOP α + BORDER α + HEIGHT α * (1 / 2))) ∧
    lookupBody (init_balls (emptyTable α) 0).world 0 =
      lookupBody (respawn_white_ball s h).world h := by
  have hlook : lookupBody (respawn_white_ball s h).world h =
      some (mkBall (MARGIN_LEFT α + BORDER α + WIDTH α * (1 / 4))
        (MARGIN_TOP α + BORDER α + HEIGHT α * (1 / 2))) :=
    lookupBody_addBody_fresh hf _
  refine ⟨rfl, rfl, ?_, hlook, ?_⟩
  · simp [respawn_white_ball, add_ball]
  · rw [hlook]
    rfl

/-- C9 witness: Scenario B then C — pocket the white ball of the fresh
rack, then respawn it reusing the freed slab slot 0: the white ball is
back in play at the canonical spawn point and the dropped records are
cleared. -/
theorem c9_respawn_white_witness :
    (respawn_white_ball (drop_ball rackQ 0) 0).white_ball_handle = some 0 ∧
    (respawn_white_ball (drop_ball rackQ 0) 0).white_ball_handle_dropped =
      none ∧
    0 ∉ (respawn_white_ball (drop_ball rackQ 0) 0).dropped_balls_handles ∧
    lookupBody (respawn_white_ball (drop_ball rackQ 0) 0).world 0 =
      some (mkBall (MARGIN_LEFT ℚ + BORDER ℚ + WIDTH ℚ * (1 / 4))
        (MARGIN_TOP ℚ + BORDER ℚ + HEIGHT ℚ * (1 / 2))) ∧
    lookupBody (init_balls (emptyTable ℚ) 0).world 0 =
      lookupBody (respawn_white_ball (drop_ball rackQ 0) 0).world 0 :=
  c9_respawn_white (drop_ball rackQ 0) 0 (by decide)

/-- C10: `drop_ball` on a not-yet-dropped handle that matches no
registered ball still removes that body from the world and appends the
handle to the dropped list — any non-pocket body reported against a
pocket sensor is deleted rather than ignored. -/
theorem c10_drop_unregistered (s : PoolTable α) (c : Nat)
    (hd : c ∉ s.dropped_balls_handles)
    (hw : s.white_ball_handle ≠ some c)
    (h8 : s.ball_8_handle ≠ some c)
    (hr : c ∉ s.red_balls_handles)
    (hy : c ∉ s.yellow_balls_handles) :
    (drop_ball s c).dropped_balls_handles =
      s.dropped_balls_handles ++ [c] ∧
    (drop_ball s c).world = removeBody s.world c ∧
    c ∉ liveHandles (drop_ball s c).world := by
  have hgoal : drop_ball s c =
      ⟨removeBody s.world c, s.holes, s.white_ball_handle,
        s.white_ball_handle_dropped, s.ball_8_handle,
        s.dropped_balls_handles ++ [c], s.yellow_balls_handles,
        s.red_balls_handles⟩ := by
    simp [drop_ball, hd, hw, h8, hr, hy]
  rw [hgoal]
  exact ⟨rfl, rfl, fun hmem => (mem_liveHandles_removeBody.mp hmem).2 rfl⟩

/-- C10 witness: dropping the unregistered pocket-sensor body 99 of the
augmented rack removes its body and records the handle as dropped. -/
theorem c10_drop_unregistered_witness :
    (drop_ball rackWithHole 99).dropped_balls_handles =
      rackWithHole.dropped_balls_handles ++ [99] ∧
    (drop_ball rackWithHole 99).world = removeBody rackWithHole.world 99 ∧
    99 ∉ liveHandles (drop_ball rackWithHole 99).world :=
  c10_drop_unregistered rackWithHole 99 (by decide) (by decide) (by decide)
    (by decide) (by decide)

end WasmPool
